import Mathlib

/-!
Verification of the solana-wallet-tracker reconciliation engine.

The definitions below are a shallow embedding of the Go source:
  * `pkg/monitor` (the file with `Monitor`, `processAccountUpdate`,
    `shouldTrackToken`, `updateInitialState`, `GetCurrentState`, `Start`,
    `subscribeToWalletUpdates`, `startPeriodicPolling`);
  * `pkg/solana/client.go` (`TokenAccountInfo`,
    `parseTokenAccountFromSubscription`, `SubscribeToTokenAccountUpdates`).

Go maps are embedded as association lists with Go-map insert semantics
(replace in place, append when absent).  Go `uint64` balances are `Nat`
(the code only ever compares balances for equality, so no modular
arithmetic is observable).  Timestamps are opaque `Nat` values.
External network calls (snapshot fetch) are parameters of type
`String → Except String (List TokenAccountInfo)`.  Handler dispatch is
modelled by returning the `balanceChanged` flag / the list of records
for which handlers were notified.
-/

namespace WalletTracker

/-- `TokenAccountInfo` from `pkg/solana/client.go`: address, owner, mint,
balance (uint64), decimals (uint8), program id, last-updated timestamp. -/
structure TokenAccountInfo where
  address : String
  owner : String
  mint : String
  balance : Nat
  decimals : Nat
  programID : String
  lastUpdatedAt : Nat
  deriving Repr, DecidableEq

/-- The contents of a Go `map[string]solana.TokenAccountInfo`. -/
abbrev StateMap := List (String × TokenAccountInfo)

/-- Go map read `v, ok := m[k]`. -/
def mapLookup : StateMap → String → Option TokenAccountInfo
  | [], _ => none
  | (k', v) :: rest, k => if k' = k then some v else mapLookup rest k

/-- Go map write `m[k] = v`: replaces the entry for `k` when present,
appends it otherwise. -/
def mapInsert : StateMap → String → TokenAccountInfo → StateMap
  | [], k, v => [(k, v)]
  | (k', v') :: rest, k, v =>
      if k' = k then (k, v) :: rest else (k', v') :: mapInsert rest k v

/-- A Go map never holds two entries for the same key; the association
lists representing map contents therefore have pairwise distinct keys. -/
def keysNodup (s : StateMap) : Prop := (s.map Prod.fst).Nodup

/-- The `Monitor` struct from the monitor file.  The RPC client, the
context and the mutex are runtime plumbing with no data content; the
handler list only matters through the dispatched records, which the
embedding returns explicitly. -/
structure Monitor where
  wallets : List String
  tokens : List String
  state : StateMap
  deriving Repr, DecidableEq

/-- `NewMonitor`: fresh monitor with an empty state map. -/
def NewMonitor (wallets tokens : List String) : Monitor :=
  { wallets := wallets, tokens := tokens, state := [] }

/-- The search loop inside `shouldTrackToken`:
`for _, token := range m.tokens { if token == mint { return true } }`. -/
def containsMint : List String → String → Bool
  | [], _ => false
  | t :: rest, mint => if t = mint then true else containsMint rest mint

/-- `Monitor.shouldTrackToken`: empty token list tracks everything,
otherwise the mint must appear in the list. -/
def Monitor.shouldTrackToken (m : Monitor) (mint : String) : Bool :=
  if m.tokens.isEmpty then true else containsMint m.tokens mint

/-- The key expression `account.Owner + ":" + account.Mint` used by
`processAccountUpdate`. -/
def accountKey (a : TokenAccountInfo) : String := a.owner ++ ":" ++ a.mint

/-- `Monitor.processAccountUpdate`: look up the key, declare a change when
the key is absent or the stored balance differs, store the incoming
record unconditionally.  The returned Bool is the `balanceChanged` flag,
i.e. whether handlers are notified with this record. -/
def Monitor.processAccountUpdate (m : Monitor) (account : TokenAccountInfo) :
    Monitor × Bool :=
  let key := accountKey account
  let balanceChanged :=
    match mapLookup m.state key with
    | none => true
    | some oldAccount => oldAccount.balance != account.balance
  ({ m with state := mapInsert m.state key account }, balanceChanged)

/-- Repeated calls to `processAccountUpdate`, collecting the records for
which a change notification fired (in order). -/
def applyUpdates (m : Monitor) : List TokenAccountInfo → Monitor × List TokenAccountInfo
  | [] => (m, [])
  | a :: rest =>
      let step := m.processAccountUpdate a
      let tail := applyUpdates step.1 rest
      (tail.1, (if step.2 then [a] else []) ++ tail.2)

/-- The per-account body shared by `updateInitialState` and
`startPeriodicPolling`:
`if m.shouldTrackToken(account.Mint) { m.processAccountUpdate(account) }`,
iterated over a fetched account list, collecting fired notifications. -/
def applyTracked (m : Monitor) : List TokenAccountInfo → Monitor × List TokenAccountInfo
  | [] => (m, [])
  | a :: rest =>
      if m.shouldTrackToken a.mint then
        let step := m.processAccountUpdate a
        let tail := applyTracked step.1 rest
        (tail.1, (if step.2 then [a] else []) ++ tail.2)
      else applyTracked m rest

/-- The wallet loop of `Monitor.updateInitialState`: fetch each wallet's
snapshot in order; on the first fetch error return that error at once
(the state mutations already made are kept, the remaining wallets are
not fetched); otherwise apply every returned account through the
filtered update path. -/
def updateInitialStateAux (fetch : String → Except String (List TokenAccountInfo)) :
    Monitor → List String → Monitor × Option String
  | m, [] => (m, none)
  | m, wallet :: rest =>
      match fetch wallet with
      | .error e => (m, some e)
      | .ok accounts => updateInitialStateAux fetch (applyTracked m accounts).1 rest

/-- `Monitor.updateInitialState`: runs the wallet loop over `m.wallets`. -/
def Monitor.updateInitialState (m : Monitor)
    (fetch : String → Except String (List TokenAccountInfo)) :
    Monitor × Option String :=
  updateInitialStateAux fetch m m.wallets

/-- `Monitor.Start`: loads the initial state and returns its error, if any
(the subscription goroutines and the polling goroutine it then launches
are asynchronous and do not affect the returned value or the state at
return time). -/
def Monitor.Start (m : Monitor)
    (fetch : String → Except String (List TokenAccountInfo)) :
    Monitor × Option String :=
  m.updateInitialState fetch

/-- The copy loop of `GetCurrentState`:
`for k, v := range m.state { stateCopy[k] = v }` builds a fresh map
holding exactly the entries of the state. -/
def stateCopy : StateMap → StateMap
  | [] => []
  | e :: rest => e :: stateCopy rest

/-- `Monitor.GetCurrentState`: returns the freshly built copy of the
state map. -/
def Monitor.GetCurrentState (m : Monitor) : StateMap := stateCopy m.state

/-! ## The subscription path (`pkg/solana/client.go`) -/

/-- `solana.TokenProgramID.String()`. -/
def tokenProgramID : String := "TokenkegQfeZyiNwAJbNbGKPFXCWuBvf9Ss623VQ5DA"

/-- Decimal digit accumulator behind `parseU64`. -/
def digitsToNat : List Char → Nat → Option Nat
  | [], acc => some acc
  | c :: rest, acc =>
      if c.isDigit then digitsToNat rest (acc * 10 + (c.toNat - 48)) else none

/-- `new(solana.U64).SetString`: decimal parse of an unsigned 64-bit
amount; fails on empty or non-numeric input and on overflow. -/
def parseU64 (s : String) : Option Nat :=
  match s.data with
  | [] => none
  | c :: rest =>
      match digitsToNat (c :: rest) 0 with
      | none => none
      | some n => if n < 2 ^ 64 then some n else none

/-- The data of a `ws.ProgramNotification` as seen by
`parseTokenAccountFromSubscription`: the program that owns the notified
account, the account pubkey, and the JSON-parsed token-account fields.
`decodes` models whether `json.Unmarshal` of the account data into the
expected shape succeeds (the marshal/unmarshal round trip is the only
step of the source that is not structural). -/
structure SubNotification where
  accountProgramOwner : String
  pubkey : String
  decodes : Bool
  parsedOwner : String
  parsedMint : String
  parsedAmount : String
  parsedDecimals : Nat
  deriving Repr, DecidableEq

/-- `parseTokenAccountFromSubscription`: skip (ok none) notifications not
owned by the token program; fail on an undecodable payload; skip (ok
none) accounts whose parsed owner is not the watched wallet; fail on an
unparseable amount; otherwise build the record.  `Owner` is set to the
watched wallet address, `ProgramID` is left at its zero value, and
`LastUpdatedAt` is the current time `now`. -/
def parseTokenAccountFromSubscription (n : SubNotification)
    (walletAddress : String) (now : Nat) :
    Except String (Option TokenAccountInfo) :=
  if n.accountProgramOwner ≠ tokenProgramID then .ok none
  else if n.decodes = false then .error "json unmarshal failed"
  else if n.parsedOwner ≠ walletAddress then .ok none
  else
    match parseU64 n.parsedAmount with
    | none => .error ("invalid token amount: " ++ n.parsedAmount)
    | some amount =>
        .ok (some { address := n.pubkey, owner := walletAddress,
                    mint := n.parsedMint, balance := amount,
                    decimals := n.parsedDecimals, programID := "",
                    lastUpdatedAt := now })

/-- The callback body of `Monitor.subscribeToWalletUpdates`:
drop the record when its mint is not tracked, otherwise run it through
`processAccountUpdate`. -/
def subscriptionCallback (m : Monitor) (account : TokenAccountInfo) :
    Monitor × Bool :=
  if m.shouldTrackToken account.mint then m.processAccountUpdate account
  else (m, false)

/-- One delivered notification, end to end: the parse step inside
`SubscribeToTokenAccountUpdates` (a parse error or a `nil` record only
logs and returns), then the monitor callback.  The Bool says whether a
change notification was dispatched to the handlers. -/
def handleSubNotification (m : Monitor) (walletAddress : String) (now : Nat)
    (n : SubNotification) : Monitor × Bool :=
  match parseTokenAccountFromSubscription n walletAddress now with
  | .error _ => (m, false)
  | .ok none => (m, false)
  | .ok (some account) => subscriptionCallback m account

/-! ## Ownership model for `GetCurrentState`

`GetCurrentState` allocates a fresh map (`make`) and copies every entry
into it.  To state independence of the returned copy from the store we
track, alongside the store, the contents of every map cell the engine has
handed out: `copies.get? i` is the current contents of the `i`-th
returned snapshot.  `GetCurrentState` appends a freshly built cell;
`processAccountUpdate` writes through the store cell only; a caller
mutating a returned snapshot writes through that snapshot's cell only. -/

structure World where
  store : StateMap
  copies : List StateMap
  deriving Repr, DecidableEq

/-- `GetCurrentState` on the world: the copy loop fills a fresh cell and
its index is returned to the caller. -/
def getCurrentStateW (w : World) : World × Nat :=
  ({ store := w.store, copies := w.copies ++ [stateCopy w.store] },
   w.copies.length)

/-- `processAccountUpdate` on the world: the exclusive section writes the
store cell; no handed-out copy is touched. -/
def processAccountUpdateW (w : World) (account : TokenAccountInfo) :
    World × Bool :=
  let key := accountKey account
  let balanceChanged :=
    match mapLookup w.store key with
    | none => true
    | some oldAccount => oldAccount.balance != account.balance
  ({ store := mapInsert w.store key account, copies := w.copies },
   balanceChanged)

/-- A caller mutating the snapshot it was handed (`stateCopy[k] = v` on
its own map): only that snapshot's cell changes. -/
def mutateCopy (w : World) (i : Nat) (k : String) (v : TokenAccountInfo) :
    World :=
  { store := w.store, copies := w.copies.set i (mapInsert (w.copies.getD i []) k v) }

/-! ## Reachable monitor states

The monitor's state map is only ever written through three paths, all of
which filter by `shouldTrackToken` before calling
`processAccountUpdate`: the bootstrap loop of `updateInitialState`, the
poll-tick loop of `startPeriodicPolling` (both are `applyTracked` over a
fetched account list), and the subscription callback
(`handleSubNotification`). -/
inductive Reachable : Monitor → Prop
  | init (wallets tokens : List String) : Reachable (NewMonitor wallets tokens)
  | snapshotBatch (m : Monitor) (accounts : List TokenAccountInfo) :
      Reachable m → Reachable (applyTracked m accounts).1
  | subscriptionStep (m : Monitor) (walletAddress : String) (now : Nat)
      (n : SubNotification) :
      Reachable m → Reachable (handleSubNotification m walletAddress now n).1

/-! ## Map lemmas -/

theorem mapLookup_mapInsert (s : StateMap) (k k' : String) (v : TokenAccountInfo) :
    mapLookup (mapInsert s k v) k' = if k' = k then some v else mapLookup s k' := by
  induction s with
  | nil =>
      by_cases h : k' = k
      · subst h
        simp [mapInsert, mapLookup]
      · rw [if_neg h]
        simp only [mapInsert, mapLookup]
        rw [if_neg (fun hh => h hh.symm)]
  | cons e rest ih =>
      obtain ⟨k₀, v₀⟩ := e
      by_cases h₀ : k₀ = k
      · subst h₀
        simp only [mapInsert, if_pos rfl]
        by_cases h : k₀ = k'
        · subst h
          simp [mapLookup]
        · simp only [mapLookup, if_neg h]
          rw [if_neg (fun hh => h hh.symm)]
      · simp only [mapInsert, if_neg h₀]
        by_cases h₁ : k₀ = k'
        · subst h₁
          simp only [mapLookup, if_pos rfl]
          rw [if_neg h₀]
          simp [mapLookup]
        · simp only [mapLookup, if_neg h₁, ih]

theorem mapLookup_mapInsert_self (s : StateMap) (k : String) (v : TokenAccountInfo) :
    mapLookup (mapInsert s k v) k = some v := by
  simp [mapLookup_mapInsert]

theorem mapLookup_mapInsert_ne (s : StateMap) (k k' : String) (v : TokenAccountInfo)
    (h : k' ≠ k) : mapLookup (mapInsert s k v) k' = mapLookup s k' := by
  simp [mapLookup_mapInsert, h]

theorem mapInsert_idem (s : StateMap) (k : String) (v : TokenAccountInfo) :
    mapInsert (mapInsert s k v) k v = mapInsert s k v := by
  induction s with
  | nil => simp [mapInsert]
  | cons e rest ih =>
      obtain ⟨k₀, v₀⟩ := e
      by_cases h₀ : k₀ = k
      · simp [mapInsert, h₀]
      · simp [mapInsert, h₀, ih]

theorem stateCopy_eq (s : StateMap) : stateCopy s = s := by
  induction s with
  | nil => rfl
  | cons e rest ih => simp [stateCopy, ih]

theorem mem_keys_mapInsert (s : StateMap) (k x : String) (v : TokenAccountInfo) :
    x ∈ (mapInsert s k v).map Prod.fst → x ∈ s.map Prod.fst ∨ x = k := by
  induction s with
  | nil =>
      intro hx
      right
      simpa [mapInsert] using hx
  | cons e rest ih =>
      obtain ⟨k₀, v₀⟩ := e
      intro hx
      by_cases h₀ : k₀ = k
      · subst h₀
        simp only [mapInsert, if_pos rfl, if_true, List.map_cons,
          List.mem_cons] at hx
        rcases hx with hx | hx
        · exact Or.inr hx
        · exact Or.inl (List.mem_cons.mpr (Or.inr hx))
      · simp only [mapInsert, if_neg h₀, List.map_cons, List.mem_cons] at hx
        rcases hx with hx | hx
        · exact Or.inl (List.mem_cons.mpr (Or.inl hx))
        · rcases ih hx with h | h
          · exact Or.inl (List.mem_cons.mpr (Or.inr h))
          · exact Or.inr h

theorem keysNodup_mapInsert (s : StateMap) (k : String) (v : TokenAccountInfo)
    (h : keysNodup s) : keysNodup (mapInsert s k v) := by
  induction s with
  | nil => simp [keysNodup, mapInsert]
  | cons e rest ih =>
      obtain ⟨k₀, v₀⟩ := e
      simp only [keysNodup, List.map_cons, List.nodup_cons] at h
      by_cases h₀ : k₀ = k
      · subst h₀
        simp only [keysNodup, mapInsert, if_pos rfl, if_true, List.map_cons,
          List.nodup_cons]
        exact ⟨h.1, h.2⟩
      · have tail := ih h.2
        simp only [keysNodup] at tail
        simp only [keysNodup, mapInsert, if_neg h₀, List.map_cons,
          List.nodup_cons]
        refine ⟨fun hx => ?_, tail⟩
        rcases mem_keys_mapInsert rest k k₀ v hx with hmem | hk
        · exact h.1 hmem
        · exact h₀ hk

theorem getD_append_length (l : List StateMap) (x : StateMap) :
    (l ++ [x]).getD l.length [] = x := by
  induction l with
  | nil => rfl
  | cons e rest ih => simp

/-! ## Field-preservation lemmas -/

theorem processAccountUpdate_tokens (m : Monitor) (a : TokenAccountInfo) :
    (m.processAccountUpdate a).1.tokens = m.tokens := rfl

theorem processAccountUpdate_state (m : Monitor) (a : TokenAccountInfo) :
    (m.processAccountUpdate a).1.state = mapInsert m.state (accountKey a) a := rfl

theorem applyTracked_tokens (m : Monitor) (l : List TokenAccountInfo) :
    (applyTracked m l).1.tokens = m.tokens := by
  induction l generalizing m with
  | nil => rfl
  | cons a rest ih =>
      by_cases h : m.shouldTrackToken a.mint
      · have htok : (m.processAccountUpdate a).1.tokens = m.tokens := rfl
        have hsh := ih (m.processAccountUpdate a).1
        simp only [applyTracked, h, if_true]
        rw [hsh, htok]
      · simp only [applyTracked, h]
        rw [if_neg (by simp [h]), ih m]

theorem shouldTrackToken_of_tokens_eq (m m' : Monitor) (mint : String)
    (h : m'.tokens = m.tokens) :
    m'.shouldTrackToken mint = m.shouldTrackToken mint := by
  simp [Monitor.shouldTrackToken, h]

/-- A sample record, used to instantiate theorems at concrete inputs. -/
def mkAccount (o mi : String) (b : Nat) : TokenAccountInfo :=
  { address := "addr", owner := o, mint := mi, balance := b, decimals := 0,
    programID := "", lastUpdatedAt := 0 }

/-! ## Claims -/

/-- Claim C1: for every record applied through `processAccountUpdate`, a
change is declared iff no prior record exists for the key (owner, mint)
or the prior record's balance differs from the incoming balance; in
every case the stored record for that key afterwards equals the
incoming record. -/
theorem claim1_change_iff_and_stores (m : Monitor) (a : TokenAccountInfo) :
    ((m.processAccountUpdate a).2 = true ↔
      mapLookup m.state (accountKey a) = none ∨
      ∃ old, mapLookup m.state (accountKey a) = some old ∧
        old.balance ≠ a.balance) ∧
    mapLookup (m.processAccountUpdate a).1.state (accountKey a) = some a := by
  constructor
  · simp only [Monitor.processAccountUpdate]
    cases hl : mapLookup m.state (accountKey a) with
    | none => simp [hl]
    | some old => simp [hl, bne_iff_ne]
  · simp [Monitor.processAccountUpdate, mapLookup_mapInsert_self]

/-- Claim C2 (dedup law): four updates to one key (owner, mint) with
balances b1, b2, b2, b3 (b1 differs from b2, b2 from b3), applied in
order to a state with no record for that key, fire exactly three change
notifications — the records with balances b1, b2 and b3; the repeated
b2 fires none. -/
theorem claim2_dedup_law (m : Monitor) (a1 a2 a3 a4 : TokenAccountInfo)
    (b1 b2 b3 : Nat)
    (hown2 : a2.owner = a1.owner) (hown3 : a3.owner = a1.owner)
    (hown4 : a4.owner = a1.owner)
    (hmint2 : a2.mint = a1.mint) (hmint3 : a3.mint = a1.mint)
    (hmint4 : a4.mint = a1.mint)
    (hb1 : a1.balance = b1) (hb2 : a2.balance = b2) (hb3 : a3.balance = b2)
    (hb4 : a4.balance = b3) (h12 : b1 ≠ b2) (h23 : b2 ≠ b3)
    (hfresh : mapLookup m.state (accountKey a1) = none) :
    (applyUpdates m [a1, a2, a3, a4]).2 = [a1, a2, a4] ∧
    ((applyUpdates m [a1, a2, a3, a4]).2).map TokenAccountInfo.balance =
      [b1, b2, b3] := by
  have hk2 : accountKey a2 = accountKey a1 := by
    simp [accountKey, hown2, hmint2]
  have hk3 : accountKey a3 = accountKey a1 := by
    simp [accountKey, hown3, hmint3]
  have hk4 : accountKey a4 = accountKey a1 := by
    simp [accountKey, hown4, hmint4]
  have e12 : (a1.balance != a2.balance) = true := by
    rw [hb1, hb2]; exact bne_iff_ne.mpr h12
  have e23 : (a2.balance != a3.balance) = false := by
    rw [hb2, hb3]; simp
  have e34 : (a3.balance != a4.balance) = true := by
    rw [hb3, hb4]; exact bne_iff_ne.mpr h23
  have hnotifs : (applyUpdates m [a1, a2, a3, a4]).2 = [a1, a2, a4] := by
    simp [applyUpdates, Monitor.processAccountUpdate, hk2, hk3, hk4, hfresh,
      mapLookup_mapInsert_self, e12, e23, e34]
  refine ⟨hnotifs, ?_⟩
  rw [hnotifs]
  simp [hb1, hb2, hb4]

/-- Claim C2 witness: the dedup law evaluated on the concrete balance
sequence 1, 2, 2, 3 from an empty state. -/
theorem claim2_dedup_law_witness :
    (applyUpdates (NewMonitor ["W"] [])
        [mkAccount "W" "M" 1, mkAccount "W" "M" 2,
         mkAccount "W" "M" 2, mkAccount "W" "M" 3]).2 =
      [mkAccount "W" "M" 1, mkAccount "W" "M" 2, mkAccount "W" "M" 3] ∧
    ((applyUpdates (NewMonitor ["W"] [])
        [mkAccount "W" "M" 1, mkAccount "W" "M" 2,
         mkAccount "W" "M" 2, mkAccount "W" "M" 3]).2).map
        TokenAccountInfo.balance = [1, 2, 3] :=
  claim2_dedup_law (NewMonitor ["W"] []) (mkAccount "W" "M" 1)
    (mkAccount "W" "M" 2) (mkAccount "W" "M" 2) (mkAccount "W" "M" 3)
    1 2 3 rfl rfl rfl rfl rfl rfl rfl rfl rfl rfl
    (by decide) (by decide) rfl

/-- Claim C7 (merge idempotence): applying the identical record twice in
a row yields changed = false on the second application, and the second
application leaves the store exactly as the first left it. -/
theorem claim7_idempotent_reapply (m : Monitor) (a : TokenAccountInfo) :
    (m.processAccountUpdate a).1.processAccountUpdate a =
      ((m.processAccountUpdate a).1, false) := by
  simp [Monitor.processAccountUpdate, mapLookup_mapInsert_self,
    mapInsert_idem]

/-- Claim C4 counterexample: the store key is the string
`owner ++ ":" ++ mint`, which is not injective on pairs.  The distinct
pairs ("a", "b:c") and ("a:b", "c") share the key "a:b:c", so an update
for ("a:b", "c") overwrites the record stored under ("a", "b:c") — the
frame property over pairs fails. -/
theorem claim4_counterexample :
    ((("a" : String), ("b:c" : String)) ≠ (("a:b" : String), ("c" : String))) ∧
    mapLookup (((NewMonitor [] []).processAccountUpdate
        (mkAccount "a" "b:c" 1)).1.state) ("a" ++ ":" ++ "b:c") =
      some (mkAccount "a" "b:c" 1) ∧
    mapLookup ((((NewMonitor [] []).processAccountUpdate
        (mkAccount "a" "b:c" 1)).1.processAccountUpdate
        (mkAccount "a:b" "c" 2)).1.state) ("a" ++ ":" ++ "b:c") =
      some (mkAccount "a:b" "c" 2) := by
  refine ⟨by decide, by decide, by decide⟩

/-- Claim C4 amended: the store holds at most one record per key string
`owner ++ ":" ++ mint` (key uniqueness of the map is preserved by every
update), and an update for (owner, mint) leaves the record under every
other pair (owner', mint') unchanged provided the encoded key
`owner' ++ ":" ++ mint'` differs from the incoming record's key — which
distinct pairs guarantee only when owners and mints avoid the ":"
separator. -/
theorem claim4_replace_and_frame (m : Monitor) (a : TokenAccountInfo)
    (h : keysNodup m.state) :
    keysNodup (m.processAccountUpdate a).1.state ∧
    (∀ o mi : String, o ++ ":" ++ mi ≠ accountKey a →
      mapLookup (m.processAccountUpdate a).1.state (o ++ ":" ++ mi) =
        mapLookup m.state (o ++ ":" ++ mi)) := by
  constructor
  · rw [processAccountUpdate_state]
    exact keysNodup_mapInsert m.state (accountKey a) a h
  · intro o mi hne
    rw [processAccountUpdate_state]
    exact mapLookup_mapInsert_ne m.state (accountKey a) (o ++ ":" ++ mi) a hne

/-- Claim C4 witness: the amended theorem evaluated on an empty store
and a record for ("W", "M"); the key "X:Y" is untouched. -/
theorem claim4_replace_and_frame_witness :
    keysNodup ((NewMonitor [] []).processAccountUpdate
      (mkAccount "W" "M" 1)).1.state ∧
    mapLookup ((NewMonitor [] []).processAccountUpdate
        (mkAccount "W" "M" 1)).1.state ("X" ++ ":" ++ "Y") =
      mapLookup (NewMonitor [] []).state ("X" ++ ":" ++ "Y") :=
  ⟨(claim4_replace_and_frame (NewMonitor [] []) (mkAccount "W" "M" 1)
      (by simp [keysNodup, NewMonitor])).1,
   (claim4_replace_and_frame (NewMonitor [] []) (mkAccount "W" "M" 1)
      (by simp [keysNodup, NewMonitor])).2 "X" "Y" (by decide)⟩

/-- Claim C3 counterexample: with watch set [W1, W2], a failing fetch
for W1 and a succeeding fetch for W2, `Start` returns the error but
W2's account is absent from the returned state — the loop in
`updateInitialState` returns on the first fetch error, so W2 is never
fetched. -/
theorem claim3_counterexample :
    ((NewMonitor ["W1", "W2"] []).Start
        (fun w => if w = "W1" then Except.error "fetch failed"
                  else Except.ok [mkAccount w "M" 5])).2 =
      some "fetch failed" ∧
    mapLookup ((NewMonitor ["W1", "W2"] []).Start
        (fun w => if w = "W1" then Except.error "fetch failed"
                  else Except.ok [mkAccount w "M" 5])).1.GetCurrentState
        ("W2" ++ ":" ++ "M") = none := by
  refine ⟨by decide, by decide⟩

/-- Claim C3 amended: a snapshot fetch failure aborts bootstrap at the
first failing wallet.  `start()` reports the first error; the accounts
of wallets fetched before the failure (for instance W2 when it precedes
W1 in the watch set) are present in the state, and no wallet after the
first failure is fetched. -/
theorem claim3_bootstrap_stops_at_first_failure (m : Monitor)
    (fetch : String → Except String (List TokenAccountInfo))
    (w2 w1 : String) (rest : List String)
    (accounts : List TokenAccountInfo) (e : String)
    (hw : m.wallets = w2 :: w1 :: rest)
    (h2 : fetch w2 = Except.ok accounts)
    (h1 : fetch w1 = Except.error e) :
    m.Start fetch = ((applyTracked m accounts).1, some e) := by
  unfold Monitor.Start Monitor.updateInitialState
  rw [hw]
  simp [updateInitialStateAux, h2, h1]

/-- Claim C3 witness: the amended theorem on watch set [W2, W1] with a
failing W1: the error is reported and W2's tracked account is stored. -/
theorem claim3_bootstrap_stops_witness :
    (NewMonitor ["W2", "W1"] []).Start
        (fun w => if w = "W1" then Except.error "fetch failed"
                  else Except.ok [mkAccount w "M" 5]) =
      ((applyTracked (NewMonitor ["W2", "W1"] [])
          [mkAccount "W2" "M" 5]).1, some "fetch failed") :=
  claim3_bootstrap_stops_at_first_failure (NewMonitor ["W2", "W1"] [])
    (fun w => if w = "W1" then Except.error "fetch failed"
              else Except.ok [mkAccount w "M" 5])
    "W2" "W1" [] [mkAccount "W2" "M" 5] "fetch failed"
    rfl (by rfl) (by rfl)

/-- Claim C6 (filter correctness): a record whose mint is not tracked —
non-empty allow-list not containing the mint — is discarded by the
ingestion paths: the snapshot/poll loop (`applyTracked`) and the
subscription callback leave the store unchanged and dispatch nothing;
and with an empty allow-list every mint is tracked. -/
theorem claim6_filter_correctness (m : Monitor) (a : TokenAccountInfo) :
    (m.tokens ≠ [] → containsMint m.tokens a.mint = false →
      m.shouldTrackToken a.mint = false ∧
      applyTracked m [a] = (m, []) ∧
      subscriptionCallback m a = (m, false)) ∧
    (m.tokens = [] → m.shouldTrackToken a.mint = true) := by
  constructor
  · intro hne hmint
    have hie : m.tokens.isEmpty = false := by
      cases htk : m.tokens with
      | nil => exact absurd htk hne
      | cons t ts => rfl
    have hst : m.shouldTrackToken a.mint = false := by
      simp [Monitor.shouldTrackToken, hie, hmint]
    refine ⟨hst, ?_, ?_⟩
    · simp [applyTracked, hst]
    · simp [subscriptionCallback, hst]
  · intro he
    simp [Monitor.shouldTrackToken, he]

/-- Claim C6 witness: allow-list ["X"] discards a record for mint "Y"
without store mutation or notification; the empty allow-list tracks
mint "Y". -/
theorem claim6_filter_correctness_witness :
    ((NewMonitor ["W"] ["X"]).shouldTrackToken "Y" = false ∧
      applyTracked (NewMonitor ["W"] ["X"]) [mkAccount "W" "Y" 1] =
        (NewMonitor ["W"] ["X"], []) ∧
      subscriptionCallback (NewMonitor ["W"] ["X"]) (mkAccount "W" "Y" 1) =
        (NewMonitor ["W"] ["X"], false)) ∧
    (NewMonitor ["W"] []).shouldTrackToken "Y" = true :=
  ⟨(claim6_filter_correctness (NewMonitor ["W"] ["X"])
      (mkAccount "W" "Y" 1)).1 (by decide) (by decide),
   (claim6_filter_correctness (NewMonitor ["W"] [])
      (mkAccount "W" "Y" 1)).2 rfl⟩

/-- Claim C8: in the bootstrap loop (`applyTracked`, called by
`updateInitialState`), a snapshot record with a tracked mint whose key
has not been seen is declared a change and produces a notification —
first-seen accounts are not suppressed as bootstrap seeds. -/
theorem claim8_bootstrap_first_seen_notifies (m : Monitor)
    (a : TokenAccountInfo)
    (h1 : m.shouldTrackToken a.mint = true)
    (h2 : mapLookup m.state (accountKey a) = none) :
    (m.processAccountUpdate a).2 = true ∧
    applyTracked m [a] = ((m.processAccountUpdate a).1, [a]) := by
  have hch : (m.processAccountUpdate a).2 = true := by
    simp [Monitor.processAccountUpdate, h2]
  refine ⟨hch, ?_⟩
  simp [applyTracked, h1, applyUpdates, hch]

/-- Claim C8 witness: a first-seen tracked account in an empty monitor
fires a change notification during bootstrap. -/
theorem claim8_bootstrap_first_seen_witness :
    ((NewMonitor ["W"] []).processAccountUpdate (mkAccount "W" "M" 7)).2 =
      true ∧
    applyTracked (NewMonitor ["W"] []) [mkAccount "W" "M" 7] =
      (((NewMonitor ["W"] []).processAccountUpdate (mkAccount "W" "M" 7)).1,
        [mkAccount "W" "M" 7]) :=
  claim8_bootstrap_first_seen_notifies (NewMonitor ["W"] [])
    (mkAccount "W" "M" 7) rfl rfl

/-- Claim C9: a record decoded from a delivered notification is handed
to the update path only when its owner is the watched wallet — any
successfully parsed record carries that owner — and a malformed
notification (parse error) or one for another owner (parsed to nothing)
leaves the monitor unchanged with no dispatch. -/
theorem claim9_subscription_owner_filter (m : Monitor) (w : String)
    (now : Nat) (n : SubNotification) :
    (∀ a, parseTokenAccountFromSubscription n w now =
        Except.ok (some a) → a.owner = w) ∧
    (parseTokenAccountFromSubscription n w now = Except.ok none →
      handleSubNotification m w now n = (m, false)) ∧
    (∀ e, parseTokenAccountFromSubscription n w now = Except.error e →
      handleSubNotification m w now n = (m, false)) := by
  refine ⟨?_, ?_, ?_⟩
  · intro a ha
    unfold parseTokenAccountFromSubscription at ha
    split at ha
    · simp at ha
    · split at ha
      · simp at ha
      · split at ha
        · simp at ha
        · split at ha
          · simp at ha
          · simp only [Except.ok.injEq, Option.some.injEq] at ha
            rw [← ha]
  · intro hnone
    unfold handleSubNotification
    rw [hnone]
  · intro e herr
    unfold handleSubNotification
    rw [herr]

/-- Claim C9 witness: a decodable notification for wallet "W" parses to
a record owned by "W"; an undecodable notification is dropped with no
store mutation and no dispatch. -/
theorem claim9_subscription_owner_filter_witness :
    (mkAccount "W" "M" 5 : TokenAccountInfo).owner = "W" ∧
    handleSubNotification (NewMonitor ["W"] []) "W" 0
        { accountProgramOwner := tokenProgramID, pubkey := "addr",
          decodes := false, parsedOwner := "W", parsedMint := "M",
          parsedAmount := "5", parsedDecimals := 0 } =
      (NewMonitor ["W"] [], false) :=
  ⟨(claim9_subscription_owner_filter (NewMonitor ["W"] []) "W" 0
      { accountProgramOwner := tokenProgramID, pubkey := "addr",
        decodes := true, parsedOwner := "W", parsedMint := "M",
        parsedAmount := "5", parsedDecimals := 0 }).1
      (mkAccount "W" "M" 5) (by rfl),
   (claim9_subscription_owner_filter (NewMonitor ["W"] []) "W" 0
      { accountProgramOwner := tokenProgramID, pubkey := "addr",
        decodes := false, parsedOwner := "W", parsedMint := "M",
        parsedAmount := "5", parsedDecimals := 0 }).2.2
      "json unmarshal failed" (by rfl)⟩

/-- Claim C5: `GetCurrentState` hands back a point-in-time copy of the
store contents in a freshly allocated cell: the returned snapshot's
contents equal the store contents at the call, a caller mutating any
returned snapshot never changes the store, and no later update through
`processAccountUpdate` changes any previously returned snapshot. -/
theorem claim5_current_state_independent_copy (w : World) :
    (getCurrentStateW w).1.copies.getD (getCurrentStateW w).2 [] = w.store ∧
    (∀ i k v, (mutateCopy (getCurrentStateW w).1 i k v).store = w.store) ∧
    (∀ a, ((processAccountUpdateW (getCurrentStateW w).1 a).1).copies =
      (getCurrentStateW w).1.copies) := by
  refine ⟨?_, ?_, ?_⟩
  · simp only [getCurrentStateW, getD_append_length, stateCopy_eq]
  · intro i k v
    rfl
  · intro a
    rfl

/-! ## Invariant machinery for C10 -/

theorem processAccountUpdate_preserves_tracked (m : Monitor)
    (a : TokenAccountInfo) (ha : m.shouldTrackToken a.mint = true)
    (ih : ∀ k b, mapLookup m.state k = some b →
      m.shouldTrackToken b.mint = true) :
    ∀ k b, mapLookup (m.processAccountUpdate a).1.state k = some b →
      (m.processAccountUpdate a).1.shouldTrackToken b.mint = true := by
  intro k b hk
  rw [shouldTrackToken_of_tokens_eq m (m.processAccountUpdate a).1 b.mint
    (processAccountUpdate_tokens m a)]
  rw [processAccountUpdate_state, mapLookup_mapInsert] at hk
  by_cases hkk : k = accountKey a
  · rw [if_pos hkk] at hk
    have hb : a = b := by injection hk
    rw [← hb]
    exact ha
  · rw [if_neg hkk] at hk
    exact ih k b hk

theorem applyTracked_preserves_tracked (accounts : List TokenAccountInfo)
    (m : Monitor)
    (ih : ∀ k b, mapLookup m.state k = some b →
      m.shouldTrackToken b.mint = true) :
    ∀ k b, mapLookup (applyTracked m accounts).1.state k = some b →
      (applyTracked m accounts).1.shouldTrackToken b.mint = true := by
  induction accounts generalizing m with
  | nil => exact ih
  | cons a rest ihr =>
      by_cases hg : m.shouldTrackToken a.mint = true
      · have hstep := processAccountUpdate_preserves_tracked m a hg ih
        have h1 : (applyTracked m (a :: rest)).1 =
            (applyTracked (m.processAccountUpdate a).1 rest).1 := by
          simp [applyTracked, hg]
        rw [h1]
        exact ihr (m.processAccountUpdate a).1 hstep
      · have h1 : (applyTracked m (a :: rest)).1 = (applyTracked m rest).1 := by
          simp [applyTracked, hg]
        rw [h1]
        exact ihr m ih

theorem handleSubNotification_preserves_tracked (m : Monitor) (w : String)
    (now : Nat) (n : SubNotification)
    (ih : ∀ k b, mapLookup m.state k = some b →
      m.shouldTrackToken b.mint = true) :
    ∀ k b, mapLookup (handleSubNotification m w now n).1.state k = some b →
      (handleSubNotification m w now n).1.shouldTrackToken b.mint = true := by
  unfold handleSubNotification
  cases parseTokenAccountFromSubscription n w now with
  | error e => exact ih
  | ok o =>
      cases o with
      | none => exact ih
      | some a =>
          unfold subscriptionCallback
          cases hg : m.shouldTrackToken a.mint with
          | false =>
              simp only [hg, Bool.false_eq_true, if_false]
              exact ih
          | true =>
              simp only [hg, if_true]
              exact processAccountUpdate_preserves_tracked m a hg ih

theorem reachable_tracked_inv (m : Monitor) (h : Reachable m) :
    ∀ k b, mapLookup m.state k = some b →
      m.shouldTrackToken b.mint = true := by
  induction h with
  | init wallets tokens =>
      intro k b hk
      simp [NewMonitor, mapLookup] at hk
  | snapshotBatch m' accounts hm ih =>
      exact applyTracked_preserves_tracked accounts m' ih
  | subscriptionStep m' w now n hm ih =>
      exact handleSubNotification_preserves_tracked m' w now n ih

/-- Claim C10 (invariant): in every monitor state reachable through the
ingestion paths — bootstrap/poll batches (`applyTracked`) and the
subscription callback (`handleSubNotification`) — every record in the
state map, and hence every record returned by `GetCurrentState`, has a
mint accepted by the filter `shouldTrackToken` (token list empty, or
the mint a member of it). -/
theorem claim10_state_mints_tracked (m : Monitor) (k : String)
    (b : TokenAccountInfo) (h : Reachable m) :
    (mapLookup m.state k = some b → m.shouldTrackToken b.mint = true) ∧
    (mapLookup m.GetCurrentState k = some b →
      m.shouldTrackToken b.mint = true) := by
  constructor
  · exact reachable_tracked_inv m h k b
  · intro hk
    rw [Monitor.GetCurrentState, stateCopy_eq] at hk
    exact reachable_tracked_inv m h k b hk

/-- Claim C10 witness: a monitor that bootstrapped one tracked account
satisfies the invariant at that record. -/
theorem claim10_state_mints_tracked_witness :
    (applyTracked (NewMonitor ["W"] ["X"])
        [mkAccount "W" "X" 5]).1.shouldTrackToken
      (mkAccount "W" "X" 5).mint = true :=
  (claim10_state_mints_tracked
      (applyTracked (NewMonitor ["W"] ["X"]) [mkAccount "W" "X" 5]).1
      ("W" ++ ":" ++ "X") (mkAccount "W" "X" 5)
      (Reachable.snapshotBatch (NewMonitor ["W"] ["X"])
        [mkAccount "W" "X" 5] (Reachable.init ["W"] ["X"]))).1
    (by decide)

end WalletTracker
